import Mathlib

/-!
# Verification of the SQLAlchemy selectable core (sql/selectable.py)

Shallow embedding of the FROM-clause / column-correspondence model of
`lib/sqlalchemy/sql/selectable.py`, together with theorems settling the
frozen claims about that code.

Python object identity is modelled by a numeric `id` field; Python sets of
objects become lists of ids (membership compared by id).  Attributes coming
from modules that are not part of the source under verification
(`elements.py`, `util`): those are modelled from the spec and marked as such
in their doc comments.
-/

namespace SqlaSel

/-- Decidable equality for `Except` results, so that concrete runs of the
embedded functions can be checked by `decide`. -/
instance instDecEqExcept {ε α : Type} [DecidableEq ε] [DecidableEq α] :
    DecidableEq (Except ε α) := fun a b =>
  match a, b with
  | .ok x, .ok y =>
    if h : x = y then .isTrue (by rw [h]) else .isFalse (by simp [h])
  | .error x, .error y =>
    if h : x = y then .isTrue (by rw [h]) else .isFalse (by simp [h])
  | .ok _, .error _ => .isFalse (by simp)
  | .error _, .ok _ => .isFalse (by simp)

/-- A column as it appears *inside* a `proxy_set`: we record the attributes
of the referenced column object that the correspondence algorithm reads —
its identity, its `weight` annotation (`_annotations.get('weight', 1)`),
its own `proxy_set` (as ids, for `shares_lineage`) and its `_cloned_set`
(as ids, for `_expand_cloned`). -/
structure ColRef where
  id : Nat
  weight : Nat
  proxyIds : List Nat
  clonedIds : List Nat
deriving DecidableEq, Repr

/-- Modelled from the spec: a `ColumnElement` "has a `key` (name), a
`proxy_set` (the set of original columns it is derived from, used for
lineage comparisons)".  `label` stands for the `_label` attribute used as
the key when a Join populates its column collection.  `clonedIds` is the
`_cloned_set` identity set of §4.1 (contains the column itself). -/
structure Col where
  id : Nat
  key : String
  label : String
  proxySet : List ColRef
  clonedIds : List Nat
deriving DecidableEq, Repr

/-- The ids of the members of a column's `proxy_set`. -/
def Col.proxyIds (c : Col) : List Nat := c.proxySet.map (·.id)

/-- Modelled from the spec: `_expand_cloned` (defined in `elements.py`)
chains the `_cloned_set` of every element, so that clone identities
(§4.1) are recognized. -/
def expandClonedRefs (rs : List ColRef) : List Nat := rs.flatMap (·.clonedIds)

/-- Modelled from the spec: `ColumnCollection.contains_column` tests
object-identity membership of the column in the collection. -/
def containsColumn (cols : List Col) (c : Col) : Bool :=
  cols.any (fun x => x.id == c.id)

/-- The `embedded(expanded_proxy_set, target_set)` helper inside
`FromClause.corresponding_column`: every member of the target set not
already in the expanded proxy set must reach it via clone expansion. -/
def embeddedChk (eps : List Nat) (targetSet : List ColRef) : Bool :=
  (targetSet.filter (fun t => !(eps.contains t.id))).all
    (fun t => t.clonedIds.any (fun x => eps.contains x))

/-- `sc.shares_lineage(column)`: nonempty intersection of the proxy sets. -/
def sharesLineage (r : ColRef) (targetIds : List Nat) : Bool :=
  r.proxyIds.any (fun x => targetIds.contains x)

/-- The "distance" sum in the tie-break branch of `corresponding_column`:
sum of the `weight` annotations over the members of the candidate's
proxy set that share lineage with the target column. -/
def ccDistance (c : Col) (targetIds : List Nat) : Nat :=
  ((c.proxySet.dedup).filter (fun sc => sharesLineage sc targetIds)).foldl
    (fun acc sc => acc + sc.weight) 0

/-- Set equality of two id lists (Python frozenset equality `i == intersect`). -/
def idSetEq (a b : List Nat) : Bool :=
  a.all (fun x => b.contains x) && b.all (fun x => a.contains x)

/-- Loop state of `corresponding_column`: the current best candidate `col`
and its field of correspondence `intersect` (a duplicate-free id list). -/
structure CCAcc where
  col : Option Col
  intersectIds : List Nat
deriving DecidableEq, Repr

/-- One iteration of the `for c in cols` loop of
`FromClause.corresponding_column` (selectable.py lines 187-224). -/
def ccStep (column : Col) (requireEmbedded : Bool) (acc : CCAcc) (c : Col) :
    CCAcc :=
  let eps := expandClonedRefs c.proxySet
  let i := ((column.proxySet.map (·.id)).dedup).filter (fun x => eps.contains x)
  if i ≠ [] ∧ (requireEmbedded = false ∨ embeddedChk eps column.proxySet) then
    match acc.col with
    | none => ⟨some c, i⟩
    | some col =>
      if i.length > acc.intersectIds.length then ⟨some c, i⟩
      else if idSetEq i acc.intersectIds then
        if ccDistance c (column.proxySet.map (·.id)) <
            ccDistance col (column.proxySet.map (·.id)) then ⟨some c, i⟩
        else acc
      else acc
  else acc

/-- `FromClause.corresponding_column(column, require_embedded)` (selectable.py
lines 156-225): return the column itself if locally present, otherwise scan
the exported columns for the candidate with the largest proxy-set
intersection, tie-broken by weight distance. -/
def correspondingColumn (cols : List Col) (column : Col)
    (requireEmbedded : Bool) : Option Col :=
  if containsColumn cols column then some column
  else (cols.foldl (ccStep column requireEmbedded) ⟨none, []⟩).col

/-- First non-None `corresponding_column(equiv, require_embedded=True)` over
a list of equivalents — the `for equiv in equivalents[col]` loop of
`FromClause.correspond_on_equivalents`. -/
def firstEquivCC (cols : List Col) : List Col → Option Col
  | [] => none
  | e :: rest =>
    match correspondingColumn cols e true with
    | some nc => some nc
    | none => firstEquivCC cols rest

/-- An equivalents dictionary: keyed by column identity; the key `none`
represents the Python `None` key, which the source code actually consults
(`col in equivalents` is evaluated after `col` has been found to be `None`). -/
def dictLookup (d : List (Option Nat × List Col)) (k : Option Nat) :
    Option (List Col) :=
  (d.find? (fun p => p.1 = k)).map (·.2)

/-- `FromClause.correspond_on_equivalents(column, equivalents)` (selectable.py
lines 143-154), translated literally: `col` is computed with
`require_embedded=True`; the guard is `col is None and col in equivalents`,
so the dictionary is consulted with the key `col` — which is `None` in the
only branch where the lookup happens — and the loop iterates over
`equivalents[None]`; falling through returns `col` (i.e. `None`). -/
def correspondOnEquivalents (cols : List Col) (column : Col)
    (equivalents : List (Option Nat × List Col)) : Option Col :=
  match correspondingColumn cols column true with
  | some c => some c
  | none =>
    match dictLookup equivalents none with
    | some eqs =>
      match firstEquivCC cols eqs with
      | some nc => some nc
      | none => none
    | none => none

/-- Modelled from the spec: the *intended* contract of
`correspond_on_equivalents` per §9 ("fall back to equivalents lookup only
when direct correspondence fails") and the function's own doc string
("Return corresponding_column for the given column, or if None search for
a match in the given dictionary"): the dictionary is consulted under the
*given column's* key. -/
def correspondOnEquivalentsSpec (cols : List Col) (column : Col)
    (equivalents : List (Option Nat × List Col)) : Option Col :=
  match correspondingColumn cols column true with
  | some c => some c
  | none =>
    match dictLookup equivalents (some column.id) with
    | some eqs =>
      match firstEquivCC cols eqs with
      | some nc => some nc
      | none => none
    | none => none

/-- A base (table-bound) column: its proxy set and cloned set contain just
itself, weight defaults to 1. -/
def baseCol (i : Nat) (k : String) : Col :=
  ⟨i, k, k, [⟨i, 1, [i], [i]⟩], [i]⟩

/-- Modelled from the spec: `_make_proxy` produces "a new column bound to
this Alias, proxy_set extended with the original" — the proxy is a fresh
object (fresh id `f`), same key, and its proxy set is itself plus the
original column's proxy set. -/
def makeProxyCol (f : Nat) (c : Col) : Col :=
  ⟨f, c.key, c.key, ⟨f, 1, f :: c.proxySet.map (·.id), [f]⟩ :: c.proxySet, [f]⟩

/-- `Alias._populate_column_collection` (selectable.py lines 619-621): each
column of the wrapped element is proxied, in order, with fresh identities. -/
def aliasColumns : List Col → Nat → List Col
  | [], _ => []
  | c :: cs, f => makeProxyCol f c :: aliasColumns cs (f + 1)

/-- The columns of a `TableClause` built from (id, name) pairs. -/
def tableCols (ps : List (Nat × String)) : List Col :=
  ps.map (fun p => baseCol p.1 p.2)

/-! ## Join column collection (`Join._populate_column_collection`) -/

/-- Modelled from the spec: `ColumnCollection` is an "ordered mapping from
key → ColumnElement; insertion order preserved for rendering; duplicate key
insertion replaces entry (last-wins)".  One keyed insertion: an existing key
keeps its position and gets the new value; a new key is appended. -/
def ccInsert (coll : List (String × Col)) (k : String) (v : Col) :
    List (String × Col) :=
  if coll.any (fun p => p.1 == k) then
    coll.map (fun p => if p.1 == k then (k, v) else p)
  else coll ++ [(k, v)]

/-- `Join._populate_column_collection` (selectable.py lines 380-388), the
`_columns` part: the concatenation of the left and the right side's exported
columns is written into the collection keyed by `_label`. -/
def joinColumnCollection (left right : List Col) : List (String × Col) :=
  (left ++ right).foldl (fun acc c => ccInsert acc c.label c) []

/-! ## FROM-list derivation (`Select._froms`, `Select._get_display_froms`) -/

/-- A FROM object as referenced from another node: its identity and its
clone-identity set (`_cloned_set`, §4.1; contains the node itself). -/
structure FCRef where
  id : Nat
  clonedIds : List Nat
deriving DecidableEq, Repr

/-- A FROM object as it appears in a FROM list: its reference data plus the
objects its `_hide_froms` relationship yields (for a Join: the from-objects
of both sides, over the whole cloned set). -/
structure FCm where
  ref : FCRef
  hideFroms : List FCRef
deriving DecidableEq, Repr

/-- Modelled from the spec: `_expand_cloned` chains the `_cloned_set` of
each element, recognizing clone identities. -/
def expandFCRefs (xs : List FCRef) : List Nat := xs.flatMap (·.clonedIds)

/-- The input state of `Select._froms`: the `_from_objects` of each raw
column, the `_from_objects` of the whereclause (if any), the explicit
`_from_obj` entries, and the `_from_cloned` translation map (keyed by
object identity). -/
structure SelFromsState where
  rawColFroms : List (List FCm)
  whereFroms : Option (List FCm)
  fromObj : List FCm
  fromCloned : Option (List (FCRef × FCm))
deriving Repr

/-- The `if translate and item in translate: item = translate[item]` step of
the `add` closure in `Select._froms` (an empty dict is falsy). -/
def translateItem (translate : Option (List (FCRef × FCm))) (item : FCm) :
    FCm :=
  match translate with
  | none => item
  | some tr =>
    if tr ≠ [] then
      match tr.find? (fun p => p.1.id == item.ref.id) with
      | some p => p.2
      | none => item
    else item

/-- One iteration of the `add` closure of `Select._froms` (selectable.py
lines 1400-1406): translate the item, append it unless its clone-identity
set meets the `seen` set, and always extend `seen` with its cloned set. -/
def fromsAddStep (translate : Option (List (FCRef × FCm)))
    (acc : List FCm × List Nat) (item0 : FCm) : List FCm × List Nat :=
  let item := translateItem translate item0
  let froms :=
    if item.ref.clonedIds.any (fun x => acc.2.contains x) then acc.1
    else acc.1 ++ [item]
  (froms, acc.2 ++ item.ref.clonedIds)

/-- `Select._froms` (selectable.py lines 1390-1413): collect the FROM
objects of the raw columns, then of the whereclause, then the explicit
`_from_obj` entries, through the `add` closure. -/
def selectFroms (s : SelFromsState) : List FCm :=
  let acc1 := (s.rawColFroms.flatMap id).foldl (fromsAddStep s.fromCloned)
    ([], [])
  let acc2 :=
    match s.whereFroms with
    | some ws => ws.foldl (fromsAddStep s.fromCloned) acc1
    | none => acc1
  let acc3 := s.fromObj.foldl (fromsAddStep s.fromCloned) acc2
  acc3.1

/-- Reference characterization for claim C3: keep the first occurrence of
each clone-identity class, in order. -/
def dedupFirstClone : List FCm → List Nat → List FCm
  | [], _ => []
  | x :: xs, seen =>
    if x.ref.clonedIds.any (fun i => seen.contains i) then
      dedupFirstClone xs (seen ++ x.ref.clonedIds)
    else x :: dedupFirstClone xs (seen ++ x.ref.clonedIds)

/-- The exception kinds raised by this module. -/
inductive SAExc
  | argumentError
  | invalidRequestError
  | assertionError
deriving DecidableEq, Repr

/-- The correlation-relevant state of a `Select` used by
`_get_display_froms`. -/
structure CorrState where
  autoCorrelate : Bool
  correlate : List FCRef
  correlateExcept : Option (List FCRef)
  fromCloned : Option (List (FCRef × FCm))
deriving Repr

/-- Modelled from the spec: `_cloned_intersection(a, b)` (elements.py, not
part of the source under src/) keeps the elements of `a` whose
clone-identity set meets the clone-expansion of `b` — "is this the same
logical node, possibly copied" (§4.1). -/
def clonedInterFroms (a : List FCm) (bIds : List Nat) : List FCm :=
  a.filter (fun e => e.ref.clonedIds.any (fun i => bIds.contains i))

/-- Modelled from the spec: `_cloned_difference(a, b)` (elements.py, not in
src/) keeps the elements of `a` whose clone-identity set does not meet the
clone-expansion of `b`. -/
def clonedDiffFroms (a : List FCm) (bIds : List Nat) : List FCm :=
  a.filter (fun e => !(e.ref.clonedIds.any (fun i => bIds.contains i)))

/-- Membership of a FROM object (by identity) in a list of FROM objects. -/
def memFrom (xs : List FCm) (f : FCm) : Bool :=
  xs.any (fun e => e.ref.id == f.ref.id)

/-- The `_hide_froms` removal stage of `Select._get_display_froms`
(selectable.py lines 1427-1442): build `toremove` from the expanded hidden
froms, extend it with lexically equivalent `_from_cloned` values, and filter
the FROM list. -/
def hideFromsStage (st : CorrState) (froms : List FCm) : List FCm :=
  let toremove := froms.flatMap (fun f => expandFCRefs f.hideFroms)
  if toremove ≠ [] then
    let toremove2 :=
      match st.fromCloned with
      | some tr =>
        if tr ≠ [] then
          toremove ++ ((tr.filter (fun (p : FCRef × FCm) =>
            toremove.contains p.1.id &&
            p.2.ref.clonedIds.any (fun i => p.1.clonedIds.contains i))).map
              (fun (p : FCRef × FCm) => p.2.ref.id))
        else toremove
      | none => toremove
    froms.filter (fun f => !(toremove2.contains f.ref.id))
  else froms

/-- The explicit `correlate` stage of `_get_display_froms` (selectable.py
lines 1444-1453). -/
def correlateStage (st : CorrState) (froms : List FCm)
    (explicitIds : List Nat) : List FCm :=
  if st.correlate ≠ [] then
    froms.filter (fun f => !(memFrom
      (clonedInterFroms (clonedInterFroms froms explicitIds)
        (expandFCRefs st.correlate)) f))
  else froms

/-- The `correlate_except` stage of `_get_display_froms` (selectable.py
lines 1455-1463). -/
def correlateExceptStage (st : CorrState) (froms : List FCm)
    (explicitIds : List Nat) : List FCm :=
  match st.correlateExcept with
  | some ce =>
    froms.filter (fun f => !(memFrom
      (clonedDiffFroms (clonedInterFroms froms explicitIds)
        (expandFCRefs ce)) f))
  | none => froms

/-- The FROM list entering the auto-correlation step: stages 1-3 of
`_get_display_froms`. -/
def preAutoFroms (st : CorrState) (froms0 : List FCm)
    (explicitCorrelateFroms : List FCRef) : List FCm :=
  let e := expandFCRefs explicitCorrelateFroms
  correlateExceptStage st (correlateStage st (hideFromsStage st froms0) e) e

/-- The auto-correlation filter of `_get_display_froms` (selectable.py lines
1469-1472): drop the FROM objects that also appear (up to clone identity)
in the implicit enclosing-FROM set. -/
def autoCorrFilter (froms : List FCm) (implicitIds : List Nat) : List FCm :=
  froms.filter (fun f => !(memFrom (clonedInterFroms froms implicitIds) f))

/-- `Select._get_display_froms` (selectable.py lines 1415-1481): hide-froms
removal, explicit correlation, correlate-except, then — only when
auto-correlation is on, an implicit enclosing-FROM set was supplied and more
than one FROM remains — the auto-correlation filter, raising
InvalidRequestError when that filter leaves nothing. -/
def displayFroms (st : CorrState) (froms0 : List FCm)
    (explicitCorrelateFroms implicitCorrelateFroms : List FCRef) :
    Except SAExc (List FCm) :=
  let froms := preAutoFroms st froms0 explicitCorrelateFroms
  if st.autoCorrelate = true ∧ implicitCorrelateFroms ≠ [] ∧
      froms.length > 1 then
    let froms2 := autoCorrFilter froms (expandFCRefs implicitCorrelateFroms)
    if froms2 = [] then .error .invalidRequestError
    else .ok froms2
  else .ok froms

/-! ## CompoundSelect construction (`CompoundSelect.__init__`) -/

/-- The payload of the ArgumentError raised by `CompoundSelect.__init__`:
`'select #%d has %d columns, select #%d has %d' % (1,
len(self.selects[0].c), n + 1, len(s.c))`. -/
structure CSErr where
  firstIdx : Nat
  firstCount : Nat
  offendIdx : Nat
  offendCount : Nat
deriving DecidableEq, Repr

/-- Python truthiness of `numcols`: `None` and `0` are falsy (the source
tests `if not numcols`, not `if numcols is None`). -/
def pyTruthyNat : Option Nat → Bool
  | none => false
  | some 0 => false
  | some (_ + 1) => true

/-- The `for n, s in enumerate(selects)` loop of `CompoundSelect.__init__`
(selectable.py lines 1207-1219), abstracted over the exported column count
of each component select; `appended` models `self.selects`. -/
def csLoop : List Nat → Option Nat → Nat → List Nat → Except CSErr Unit
  | [], _, _, _ => .ok ()
  | c :: rest, numcols, n, appended =>
    if pyTruthyNat numcols = false then
      csLoop rest (some c) (n + 1) (appended ++ [c])
    else if c ≠ numcols.getD 0 then
      .error ⟨1, appended.headD 0, n + 1, c⟩
    else csLoop rest numcols (n + 1) (appended ++ [c])

/-- `CompoundSelect.__init__` column-count validation, as a function of the
component selects' exported column counts. -/
def compoundSelectInit (counts : List Nat) : Except CSErr Unit :=
  csLoop counts none 0 []

/-! ## Generative mutators (`SelectBase._generate` and the `Select` mutators)

Python attribute mutation is modelled by an explicit object store mapping
object identities to `Select` field records; `@_generative` methods copy the
receiver's fields into a fresh entry and mutate only that entry. -/

/-- A boolean clause expression; `andE` is the `and_` combination used by
`append_whereclause` / `append_having`. -/
inductive SqlExpr where
  | base (n : Nat)
  | andE (a b : SqlExpr)
deriving DecidableEq, Repr

/-- The `_distinct` attribute: `False`, `True`, or an explicit expression
list. -/
inductive DistinctSt
  | off
  | on
  | exprsOn (es : List Nat)
deriving DecidableEq, Repr

/-- The fields of a `Select` object named by claim C7 (column expressions
and FROM objects are abstracted to their identities), plus the memoized
population flag cleared by `_reset_exported`. -/
structure SelectData where
  rawColumns : List Nat
  whereclause : Option SqlExpr
  having : Option SqlExpr
  limit : Option Nat
  offset : Option Nat
  orderBy : List Nat
  groupBy : List Nat
  fromObj : List Nat
  correlate : List Nat
  correlateExcept : Option (List Nat)
  useLabels : Bool
  distinct : DistinctSt
  autoCorrelate : Bool
  colsPopulated : Bool
deriving DecidableEq, Repr

/-- The object store: object identity → field record. -/
abbrev SelStore := List (Nat × SelectData)

/-- Read the field record of an object. -/
def lookupStore : SelStore → Nat → Option SelectData
  | [], _ => none
  | p :: ps, i => if p.1 = i then some p.2 else lookupStore ps i

/-- In-place update of one object's fields. -/
def updateStore : SelStore → Nat → (SelectData → SelectData) → SelStore
  | [], _, _ => []
  | p :: ps, i, f =>
    (if p.1 = i then (p.1, f p.2) else p) :: updateStore ps i f

/-- `FromClause._reset_exported`: expire the memoized column collection. -/
def resetExported (d : SelectData) : SelectData :=
  { d with colsPopulated := false }

/-- `SelectBase._generate` (selectable.py lines 1100-1107): allocate a fresh
object whose `__dict__` is a copy of the receiver's, with exported
collections cleared; the receiver's entry is untouched. -/
def generateStep (σ : SelStore) (selfId fresh : Nat) : SelStore × Nat :=
  match lookupStore σ selfId with
  | some d => ((fresh, resetExported d) :: σ, fresh)
  | none => (σ, fresh)

/-- The `@_generative` pattern: `s = self._generate(); fn(s); return s` —
the in-place mutator `fn` runs against the fresh copy only. -/
def genApply (σ : SelStore) (selfId fresh : Nat)
    (fn : SelectData → SelectData) : SelStore × Nat :=
  let p := generateStep σ selfId fresh
  (updateStore p.1 p.2 fn, p.2)

/-- `Select.append_whereclause` (lines 1970-1987): reset exported state and
AND-accumulate onto any existing WHERE clause. -/
def appendWhereclauseFn (w : SqlExpr) (d : SelectData) : SelectData :=
  let d2 := resetExported d
  match d2.whereclause with
  | some old => { d2 with whereclause := some (.andE old w) }
  | none => { d2 with whereclause := some w }

/-- `Select.append_having` (lines 1989-2003): AND-accumulate onto any
existing HAVING clause (no exported-state reset in the source). -/
def appendHavingFn (h : SqlExpr) (d : SelectData) : SelectData :=
  match d.having with
  | some old => { d with having := some (.andE old h) }
  | none => { d with having := some h }

/-- `SelectBase.append_order_by` (lines 1147-1162): a single `None` clears
the ORDER BY list (modelled by `none`); otherwise the clauses are appended
to the existing list. -/
def appendOrderByFn (cs : Option (List Nat)) (d : SelectData) : SelectData :=
  match cs with
  | none => { d with orderBy := [] }
  | some cs2 => { d with orderBy := d.orderBy ++ cs2 }

/-- `SelectBase.append_group_by` (lines 1164-1179). -/
def appendGroupByFn (cs : Option (List Nat)) (d : SelectData) : SelectData :=
  match cs with
  | none => { d with groupBy := [] }
  | some cs2 => { d with groupBy := d.groupBy ++ cs2 }

/-- `SelectBase.limit` body (lines 1109-1114). -/
def limitFn (n : Nat) (d : SelectData) : SelectData :=
  { d with limit := some n }

/-- `SelectBase.offset` body (lines 1116-1121). -/
def offsetFn (n : Nat) (d : SelectData) : SelectData :=
  { d with offset := some n }

/-- `Select.distinct` body (lines 1769-1786): with expressions, append to an
existing expression list or replace a boolean state; with no expressions,
set the flag. -/
def distinctFn (es : List Nat) (d : SelectData) : SelectData :=
  if es ≠ [] then
    match d.distinct with
    | .exprsOn old => { d with distinct := .exprsOn (old ++ es) }
    | _ => { d with distinct := .exprsOn es }
  else { d with distinct := .on }

/-- Python set union on identity lists (element order is irrelevant to the
claims; duplicates from the right operand are dropped). -/
def pySetUnion (a b : List Nat) : List Nat :=
  a ++ b.filter (fun x => !(a.contains x))

/-- `Select.append_from` (lines 2005-2016): reset exported state and add the
FROM object to the ordered unique `_from_obj` set. -/
def appendFromFn (fc : Nat) (d : SelectData) : SelectData :=
  let d2 := resetExported d
  { d2 with fromObj := pySetUnion d2.fromObj [fc] }

/-- `Select.correlate` body (lines 1877-1883): turn auto-correlation off;
`correlate(None)` (modelled by a leading `none`) empties the set, otherwise
the FROM objects are unioned in. -/
def correlateFn (fs : List (Option Nat)) (d : SelectData) : SelectData :=
  let d2 := { d with autoCorrelate := false }
  if fs ≠ [] ∧ fs.headD none = none then { d2 with correlate := [] }
  else { d2 with correlate := pySetUnion d2.correlate (fs.filterMap id) }

/-- `Select.correlate_except` body (lines 1919-1925). -/
def correlateExceptFn (fs : List (Option Nat)) (d : SelectData) :
    SelectData :=
  let d2 := { d with autoCorrelate := false }
  if fs ≠ [] ∧ fs.headD none = none then { d2 with correlateExcept := some [] }
  else
    let ce := pySetUnion (d2.correlateExcept.getD []) (fs.filterMap id)
    { d2 with correlateExcept := some ce }

/-- `Select.with_only_columns` body (lines 1742-1750): reset exported state
and replace the raw columns wholesale. -/
def withOnlyColumnsFn (cols : List Nat) (d : SelectData) : SelectData :=
  let d2 := resetExported d
  { d2 with rawColumns := cols }

/-- `SelectBase.apply_labels` body (lines 944-955). -/
def applyLabelsFn (d : SelectData) : SelectData :=
  { d with useLabels := true }

/-- `Select.where` (lines 1752-1759). -/
def whereOp (σ : SelStore) (selfId : Nat) (w : SqlExpr) (fresh : Nat) :
    SelStore × Nat :=
  genApply σ selfId fresh (appendWhereclauseFn w)

/-- `Select.having` (lines 1761-1767). -/
def havingOp (σ : SelStore) (selfId : Nat) (h : SqlExpr) (fresh : Nat) :
    SelStore × Nat :=
  genApply σ selfId fresh (appendHavingFn h)

/-- `SelectBase.order_by` (lines 1123-1133). -/
def orderByOp (σ : SelStore) (selfId : Nat) (cs : Option (List Nat))
    (fresh : Nat) : SelStore × Nat :=
  genApply σ selfId fresh (appendOrderByFn cs)

/-- `SelectBase.group_by` (lines 1135-1145). -/
def groupByOp (σ : SelStore) (selfId : Nat) (cs : Option (List Nat))
    (fresh : Nat) : SelStore × Nat :=
  genApply σ selfId fresh (appendGroupByFn cs)

/-- `SelectBase.limit`. -/
def limitOp (σ : SelStore) (selfId n fresh : Nat) : SelStore × Nat :=
  genApply σ selfId fresh (limitFn n)

/-- `SelectBase.offset`. -/
def offsetOp (σ : SelStore) (selfId n fresh : Nat) : SelStore × Nat :=
  genApply σ selfId fresh (offsetFn n)

/-- `Select.distinct`. -/
def distinctOp (σ : SelStore) (selfId : Nat) (es : List Nat) (fresh : Nat) :
    SelStore × Nat :=
  genApply σ selfId fresh (distinctFn es)

/-- `Select.select_from` (lines 1788-1820). -/
def selectFromOp (σ : SelStore) (selfId fc fresh : Nat) : SelStore × Nat :=
  genApply σ selfId fresh (appendFromFn fc)

/-- `Select.correlate`. -/
def correlateOp (σ : SelStore) (selfId : Nat) (fs : List (Option Nat))
    (fresh : Nat) : SelStore × Nat :=
  genApply σ selfId fresh (correlateFn fs)

/-- `Select.correlate_except`. -/
def correlateExceptOp (σ : SelStore) (selfId : Nat) (fs : List (Option Nat))
    (fresh : Nat) : SelStore × Nat :=
  genApply σ selfId fresh (correlateExceptFn fs)

/-- `Select.with_only_columns`. -/
def withOnlyColumnsOp (σ : SelStore) (selfId : Nat) (cols : List Nat)
    (fresh : Nat) : SelStore × Nat :=
  genApply σ selfId fresh (withOnlyColumnsFn cols)

/-- `SelectBase.apply_labels`. -/
def applyLabelsOp (σ : SelStore) (selfId fresh : Nat) : SelStore × Nat :=
  genApply σ selfId fresh applyLabelsFn

/-! ## FromClause tree: `Alias.__init__`, `Alias._copy_internals`,
`Join.alias` -/

/-- The FromClause variants needed by claims C8 and C9: tables, aliases,
joins, parenthesizing groupings, and the SELECT-of-a-join produced by the
non-flat `Join.alias` path. -/
inductive FC where
  | table (id : Nat)
  | aliased (element : FC) (label : Nat)
  | joined (l r : FC) (onclause : Nat) (isouter : Bool)
  | grouping (element : FC)
  | selectOfJoin (l r : FC) (onclause : Nat) (isouter : Bool)
deriving DecidableEq, Repr

/-- Is this node an `Alias`? -/
def isAliasFC : FC → Bool
  | .aliased _ _ => true
  | _ => false

/-- The `while isinstance(baseselectable, Alias): baseselectable =
baseselectable.element` loop of `Alias.__init__` (selectable.py lines
585-587). -/
def unwrapAliases : FC → FC
  | .aliased e _ => unwrapAliases e
  | .table i => .table i
  | .joined l r o b => .joined l r o b
  | .grouping e => .grouping e
  | .selectOfJoin l r o b => .selectOfJoin l r o b

/-- The `element` / `original` fields set by `Alias.__init__`. -/
structure AliasData where
  element : FC
  original : FC
deriving DecidableEq, Repr

/-- `Alias.__init__` (selectable.py lines 584-598), the element/original
part: `element` is the given selectable, `original` the result of unwrapping
any chain of Alias wrappers. -/
def aliasInit (selectable : FC) : AliasData :=
  ⟨selectable, unwrapAliases selectable⟩

/-- `Alias._copy_internals` (selectable.py lines 633-644): an aliased
`TableClause` is left untouched; otherwise the element is cloned and
`original` recomputed by the same unwrapping loop. -/
def aliasCopyInternals (clone : FC → FC) (a : AliasData) : AliasData :=
  match a.element with
  | .table _ => a
  | e => ⟨clone e, unwrapAliases (clone e)⟩

/-- Modelled from the spec: the clause-adapter collaborator (§6) rewrites
the onclause to reference the newly aliased columns; column references are
not represented in the abstract onclause payload, which is carried
through. -/
def adaptOnclause (la ra : FC) (onc : Nat) : Nat :=
  let _ := la
  let _ := ra
  onc

/-- `FromClause.alias` / `Join.alias(flat=True)` / `FromGrouping.alias`
dispatched over the node kind, with a fresh-label counter threaded through:
a Join aliases its two sides independently and rejoins them (the flat
recursion of selectable.py lines 543-551); every other node is wrapped in a
fresh anonymous `Alias` (line 111); a grouping re-wraps the alias of its
element (line 736). -/
def fcAliasFlat : FC → Nat → FC × Nat
  | .table i, f => (.aliased (.table i) f, f + 1)
  | .aliased e lbl, f => (.aliased (.aliased e lbl) f, f + 1)
  | .joined l r onc o, f =>
    let lp := fcAliasFlat l f
    let rp := fcAliasFlat r lp.2
    (.joined lp.1 rp.1 (adaptOnclause lp.1 rp.1 onc) o, rp.2)
  | .grouping e, f =>
    let p := fcAliasFlat e f
    (.grouping p.1, p.2)
  | .selectOfJoin l r onc o, f => (.aliased (.selectOfJoin l r onc o) f, f + 1)

/-- `Join.alias(name, flat)` (selectable.py lines 445-553): with
`flat=True`, a non-None name trips the `assert name is None` statement
(AssertionError); otherwise the left and right sides are aliased
independently and rejoined under the adapted onclause.  With `flat=False`
the join is wrapped in a SELECT which is then aliased. -/
def joinAlias (l r : FC) (onc : Nat) (isouter : Bool) (name : Option Nat)
    (flat : Bool) (fresh : Nat) : Except SAExc FC :=
  if flat then
    if name ≠ none then .error .assertionError
    else
      let lp := fcAliasFlat l fresh
      let rp := fcAliasFlat r lp.2
      .ok (.joined lp.1 rp.1 (adaptOnclause lp.1 rp.1 onc) isouter)
  else
    .ok (.aliased (.selectOfJoin l r onc isouter) (name.getD fresh))

/-! ## Supporting lemmas -/

theorem unwrapAliases_not_alias (s : FC) :
    isAliasFC (unwrapAliases s) = false := by
  induction s with
  | table i => rfl
  | aliased e lbl ih => simpa only [unwrapAliases] using ih
  | joined l r o b ihl ihr => rfl
  | grouping e ih => rfl
  | selectOfJoin l r o b ihl ihr => rfl

theorem unwrapAliases_id_of_not_alias (t : FC) (h : isAliasFC t = false) :
    unwrapAliases t = t := by
  cases t <;> simp_all [unwrapAliases, isAliasFC]

theorem csLoop_all_eq (a : Nat) : ∀ (rest : List Nat) (n : Nat)
    (app : List Nat), (∀ x ∈ rest, x = a) →
    csLoop rest (some a) n app = .ok () := by
  intro rest
  induction rest with
  | nil => intro n app _; rfl
  | cons x xs ih =>
    intro n app h
    have hx : x = a := h x (List.mem_cons_self x xs)
    subst hx
    have hrest : ∀ y ∈ xs, y = x := fun y hy => h y (List.mem_cons_of_mem _ hy)
    rcases Bool.eq_false_or_eq_true (pyTruthyNat (some x)) with ht | ht
    · simp only [csLoop]
      rw [if_neg (by simp [ht]), if_neg (by simp)]
      exact ih (n + 1) (app ++ [x]) hrest
    · simp only [csLoop]
      rw [if_pos ht]
      exact ih (n + 1) (app ++ [x]) hrest

theorem headD_append_of_ne_nil (app : List Nat) (x : Nat) (h : app ≠ []) :
    (app ++ [x]).headD 0 = app.headD 0 := by
  cases app with
  | nil => exact absurd rfl h
  | cons y ys => rfl

theorem pyTruthyNat_of_ne_zero (a : Nat) (h : a ≠ 0) :
    pyTruthyNat (some a) = true := by
  cases a with
  | zero => exact absurd rfl h
  | succ k => rfl

theorem csLoop_err (a c : Nat) (post : List Nat) (ha : a ≠ 0) (hc : c ≠ a) :
    ∀ (pre : List Nat) (n : Nat) (app : List Nat), app ≠ [] →
    (∀ x ∈ pre, x = a) →
    csLoop (pre ++ c :: post) (some a) n app =
      .error ⟨1, app.headD 0, n + pre.length + 1, c⟩ := by
  intro pre
  induction pre with
  | nil =>
    intro n app _ _
    have ht := pyTruthyNat_of_ne_zero a ha
    simp [csLoop, ht, hc]
  | cons x xs ih =>
    intro n app happ h
    have hx : x = a := h x (List.mem_cons_self x xs)
    subst hx
    have ht := pyTruthyNat_of_ne_zero x ha
    have hrest : ∀ y ∈ xs, y = x := fun y hy => h y (List.mem_cons_of_mem _ hy)
    have happ2 : app ++ [x] ≠ [] := by simp
    simp only [List.cons_append, csLoop, List.append_eq]
    rw [if_neg (by simp [ht]), if_neg (by simp)]
    rw [ih (n + 1) (app ++ [x]) happ2 hrest,
      headD_append_of_ne_nil app x happ]
    simp only [List.length_cons, Except.error.injEq, CSErr.mk.injEq,
      eq_self_iff_true, true_and, and_true]
    omega

theorem ccInsert_not_mem (acc : List (String × Col)) (c : Col)
    (h : ∀ p ∈ acc, p.1 ≠ c.label) :
    ccInsert acc c.label c = acc ++ [(c.label, c)] := by
  have hfalse : (acc.any (fun p => p.1 == c.label)) = false := by
    rw [List.any_eq_false]
    intro p hp
    simpa using h p hp
  unfold ccInsert
  rw [if_neg (by simp [hfalse])]

theorem joinCC_fold (cs : List Col) : ∀ acc : List (String × Col),
    ((cs.map (·.label)).Nodup) → (∀ c ∈ cs, ∀ p ∈ acc, p.1 ≠ c.label) →
    cs.foldl (fun acc c => ccInsert acc c.label c) acc =
      acc ++ cs.map (fun c => (c.label, c)) := by
  induction cs with
  | nil => intro acc _ _; simp
  | cons c cs ih =>
    intro acc hnodup hfresh
    simp only [List.foldl_cons]
    rw [ccInsert_not_mem acc c (hfresh c (List.mem_cons_self c cs))]
    have hnd2 : ((cs.map (·.label)).Nodup) := (List.nodup_cons.1 hnodup).2
    have hlab : c.label ∉ cs.map (·.label) := by
      simpa using (List.nodup_cons.1 hnodup).1
    rw [ih (acc ++ [(c.label, c)]) hnd2 ?_]
    · simp
    · intro c2 hc2 p hp
      rcases List.mem_append.1 hp with hin | hin
      · exact hfresh c2 (List.mem_cons_of_mem _ hc2) p hin
      · have hpe : p = (c.label, c) := by simpa using hin
        subst hpe
        intro heq
        have heq2 : c.label = c2.label := heq
        exact hlab (by rw [heq2]; exact List.mem_map_of_mem (·.label) hc2)

theorem lookupStore_update_ne (σ : SelStore) (i j : Nat)
    (f : SelectData → SelectData) (hij : i ≠ j) :
    lookupStore (updateStore σ i f) j = lookupStore σ j := by
  induction σ with
  | nil => rfl
  | cons p ps ih =>
    rcases p with ⟨k, d⟩
    by_cases hk : k = i
    · subst hk
      simp [updateStore, lookupStore, hij, ih]
    · by_cases hkj : k = j
      · subst hkj
        simp [updateStore, lookupStore, hk]
      · simp [updateStore, lookupStore, hk, hkj, ih]

theorem genApply_frame (σ : SelStore) (selfId fresh : Nat) (d : SelectData)
    (fn : SelectData → SelectData) (h : lookupStore σ selfId = some d)
    (hfr : fresh ≠ selfId) :
    lookupStore (genApply σ selfId fresh fn).1 selfId = some d ∧
    (genApply σ selfId fresh fn).2 = fresh := by
  unfold genApply generateStep
  rw [h]
  refine ⟨?_, rfl⟩
  show lookupStore
    (updateStore ((fresh, resetExported d) :: σ) fresh fn) selfId = some d
  simp [updateStore, lookupStore, hfr,
    lookupStore_update_ne σ fresh selfId fn hfr, h]

theorem fromsAdd_fold (tr : Option (List (FCRef × FCm))) :
    ∀ (items : List FCm) (froms : List FCm) (seen : List Nat),
    items.foldl (fromsAddStep tr) (froms, seen) =
      (froms ++ dedupFirstClone (items.map (translateItem tr)) seen,
       seen ++ (items.map (translateItem tr)).flatMap
         (fun i => i.ref.clonedIds)) := by
  intro items
  induction items with
  | nil => intro froms seen; simp [dedupFirstClone]
  | cons x xs ih =>
    intro froms seen
    simp only [List.foldl_cons, List.map_cons, List.flatMap_cons]
    rcases Bool.eq_false_or_eq_true
        ((translateItem tr x).ref.clonedIds.any (fun i => seen.contains i))
      with hx | hx
    · have hmem : ∃ i ∈ (translateItem tr x).ref.clonedIds, i ∈ seen := by
        simpa using hx
      have hstep : fromsAddStep tr (froms, seen) x =
          (froms, seen ++ (translateItem tr x).ref.clonedIds) := by
        simp only [fromsAddStep]
        rw [if_pos hx]
      have hd : dedupFirstClone
            (translateItem tr x :: xs.map (translateItem tr)) seen =
          dedupFirstClone (xs.map (translateItem tr))
            (seen ++ (translateItem tr x).ref.clonedIds) := by
        simp only [dedupFirstClone]
        rw [if_pos hx]
      rw [hstep, ih, hd]
      simp [List.append_assoc]
    · have hmem : ∀ i ∈ (translateItem tr x).ref.clonedIds, i ∉ seen := by
        simpa using hx
      have hstep : fromsAddStep tr (froms, seen) x =
          (froms ++ [translateItem tr x],
           seen ++ (translateItem tr x).ref.clonedIds) := by
        simp only [fromsAddStep]
        rw [if_neg (by simpa using hx)]
      have hd : dedupFirstClone
            (translateItem tr x :: xs.map (translateItem tr)) seen =
          translateItem tr x :: dedupFirstClone (xs.map (translateItem tr))
            (seen ++ (translateItem tr x).ref.clonedIds) := by
        simp only [dedupFirstClone]
        rw [if_neg (by simpa using hx)]
      rw [hstep, ih, hd]
      simp [List.append_assoc]

theorem filterI_proxy_base (xid g p : Nat) (xkey q : String)
    (h1 : xid ≠ g) (h2 : xid ≠ p) :
    (((baseCol xid xkey).proxySet.map (·.id)).dedup).filter
      (fun i =>
        (expandClonedRefs (makeProxyCol g (baseCol p q)).proxySet).contains i)
      = [] := by
  simp [baseCol, makeProxyCol, expandClonedRefs, h1, h2]

theorem ccFold_skip (x : Col) (re : Bool) : ∀ (cs : List Col) (acc : CCAcc),
    (∀ c ∈ cs, ((x.proxySet.map (·.id)).dedup).filter
      (fun i => (expandClonedRefs c.proxySet).contains i) = []) →
    cs.foldl (ccStep x re) acc = acc := by
  intro cs
  induction cs with
  | nil => intro acc _; rfl
  | cons c cs ih =>
    intro acc h
    have hc := h c (List.mem_cons_self c cs)
    have hstep : ccStep x re acc c = acc := by
      simp only [ccStep]
      rw [if_neg (fun hcon => hcon.1 hc)]
    simp only [List.foldl_cons, hstep]
    exact ih acc (fun c2 h2 => h c2 (List.mem_cons_of_mem _ h2))

theorem containsColumn_aliasColumns_lt (x : Col) : ∀ (cs : List Col)
    (f : Nat), x.id < f → containsColumn (aliasColumns cs f) x = false := by
  intro cs
  induction cs with
  | nil => intro f _; rfl
  | cons c cs ih =>
    intro f h
    simp only [aliasColumns, containsColumn, List.any_cons]
    have h1 : ((makeProxyCol f c).id == x.id) = false := by
      simp only [makeProxyCol, beq_eq_false_iff_ne, ne_eq]
      omega
    have h2 := ih (f + 1) (by omega)
    simp only [containsColumn] at h2
    simp [h1, h2]

theorem aliasColumns_append (a : List Col) : ∀ (b : List Col) (f : Nat),
    aliasColumns (a ++ b) f =
      aliasColumns a f ++ aliasColumns b (f + a.length) := by
  induction a with
  | nil => intro b f; simp [aliasColumns]
  | cons c cs ih =>
    intro b f
    simp only [List.cons_append, aliasColumns, List.append_eq,
      List.length_cons]
    rw [ih b (f + 1),
      show f + 1 + cs.length = f + (cs.length + 1) from by omega]

theorem aliasColumns_length (cs : List Col) : ∀ f : Nat,
    (aliasColumns cs f).length = cs.length := by
  induction cs with
  | nil => intro f; rfl
  | cons c cs ih => intro f; simp [aliasColumns, ih]

theorem aliasColumns_tableCols_skip (xid : Nat) (xkey : String) :
    ∀ (ps : List (Nat × String)) (f : Nat), xid < f →
    xid ∉ ps.map Prod.fst →
    ∀ c ∈ aliasColumns (tableCols ps) f,
    (((baseCol xid xkey).proxySet.map (·.id)).dedup).filter
      (fun i => (expandClonedRefs c.proxySet).contains i) = [] := by
  intro ps
  induction ps with
  | nil => intro f _ _ c hc; simp [tableCols, aliasColumns] at hc
  | cons p ps ih =>
    intro f hlt hnm c hc
    have hnm1 : xid ≠ p.1 := by
      intro he
      exact hnm (by simp [he])
    have hnm2 : xid ∉ ps.map Prod.fst := fun hmm => hnm (by simp [hmm])
    simp only [tableCols, List.map_cons, aliasColumns] at hc
    rcases List.mem_cons.1 hc with hceq | hc2
    · subst hceq
      exact filterI_proxy_base xid f p.1 xkey p.2 (by omega) hnm1
    · exact ih (f + 1) (by omega) hnm2 c hc2

theorem ccStep_hit (xid g : Nat) (xkey : String) (re : Bool) :
    ccStep (baseCol xid xkey) re ⟨none, []⟩
        (makeProxyCol g (baseCol xid xkey)) =
      ⟨some (makeProxyCol g (baseCol xid xkey)), [xid]⟩ := by
  have hi : (((baseCol xid xkey).proxySet.map (·.id)).dedup).filter
      (fun i =>
        (expandClonedRefs
          (makeProxyCol g (baseCol xid xkey)).proxySet).contains i)
      = [xid] := by
    simp [baseCol, makeProxyCol, expandClonedRefs]
  have hemb : embeddedChk
      (expandClonedRefs (makeProxyCol g (baseCol xid xkey)).proxySet)
      (baseCol xid xkey).proxySet = true := by
    simp [embeddedChk, baseCol, makeProxyCol, expandClonedRefs]
  simp only [ccStep, hi]
  rw [if_pos ⟨by simp, Or.inr hemb⟩]

/-! ## Claim theorems -/

/-- C10: if the target column is already contained in the exported column
collection, `corresponding_column` returns that very column, for either
value of `require_embedded`, before any proxy-set comparison happens. -/
theorem claim_C10 (cols : List Col) (column : Col) (re : Bool)
    (h : containsColumn cols column = true) :
    correspondingColumn cols column re = some column := by
  unfold correspondingColumn
  simp [h]

theorem claim_C10_witness :
    containsColumn [baseCol 1 "x"] (baseCol 1 "x") = true ∧
    correspondingColumn [baseCol 1 "x"] (baseCol 1 "x") true =
      some (baseCol 1 "x") ∧
    correspondingColumn [baseCol 1 "x"] (baseCol 1 "x") false =
      some (baseCol 1 "x") :=
  ⟨by decide, claim_C10 _ _ true (by decide), claim_C10 _ _ false (by decide)⟩

/-- C9: an Alias's `original` is never itself an Alias: the constructor
unwraps any chain of Alias wrappers (so the Alias of an Alias of `t` has
`original = t`), and `_copy_internals` preserves the invariant. -/
theorem claim_C9 :
    (∀ s : FC, isAliasFC (aliasInit s).original = false) ∧
    (∀ (t : FC) (lbl : Nat), isAliasFC t = false →
      (aliasInit (.aliased t lbl)).original = t) ∧
    (∀ (clone : FC → FC) (a : AliasData), isAliasFC a.original = false →
      isAliasFC ((aliasCopyInternals clone a).original) = false) := by
  refine ⟨fun s => unwrapAliases_not_alias s, fun t lbl h => ?_,
    fun clone a h => ?_⟩
  · show unwrapAliases (.aliased t lbl) = t
    simp only [unwrapAliases]
    exact unwrapAliases_id_of_not_alias t h
  · rcases a with ⟨el, orig⟩
    cases el with
    | table i => exact h
    | aliased e lbl => exact unwrapAliases_not_alias _
    | joined l r o b => exact unwrapAliases_not_alias _
    | grouping e => exact unwrapAliases_not_alias _
    | selectOfJoin l r o b => exact unwrapAliases_not_alias _

theorem claim_C9_witness :
    isAliasFC (aliasInit (.aliased (.aliased (.table 3) 7) 9)).original
      = false ∧
    (aliasInit (FC.aliased (.table 3) 7)).original = .table 3 ∧
    isAliasFC ((aliasCopyInternals (fun x => x)
      ⟨.grouping (.table 1), .table 1⟩).original) = false :=
  ⟨claim_C9.1 _, claim_C9.2.1 (.table 3) 7 (by decide),
    claim_C9.2.2 _ _ (by decide)⟩

/-- C8 (amended): `Join.alias` with `flat=True` and a non-None name fails
the `assert name is None` statement — an AssertionError, not an
ArgumentError; without a name it returns the join of the two independently
aliased sides. -/
theorem claim_C8 (l r : FC) (onc : Nat) (isouter : Bool) (fresh : Nat) :
    (∀ n : Nat,
      joinAlias l r onc isouter (some n) true fresh =
        .error .assertionError) ∧
    joinAlias l r onc isouter none true fresh =
      .ok (.joined (fcAliasFlat l fresh).1
        (fcAliasFlat r (fcAliasFlat l fresh).2).1
        (adaptOnclause (fcAliasFlat l fresh).1
          (fcAliasFlat r (fcAliasFlat l fresh).2).1 onc) isouter) := by
  constructor
  · intro n
    simp [joinAlias]
  · simp [joinAlias]

/-- C8 counterexample: the claim as stated says ArgumentError; on a
concrete join with a name and `flat=True` the code raises AssertionError,
which is a different exception kind. -/
theorem counterexample_C8 :
    joinAlias (.table 0) (.table 1) 5 false (some 7) true 10 =
      .error .assertionError ∧
    SAExc.assertionError ≠ SAExc.argumentError := by
  refine ⟨?_, by decide⟩
  simp [joinAlias]

/-- C2 (amended): with auto-correlation on and an implicit enclosing-FROM
set supplied, when more than one FROM source remains after the hide/
explicit-correlation stages, the auto-correlation filter applies: if it
would remove every remaining source, `_get_display_froms` raises
InvalidRequestError; a non-empty filtered list is returned normally.  When
at most one FROM source remains the auto-correlation step is skipped and
the list is returned unchanged. -/
theorem claim_C2 (st : CorrState) (froms0 : List FCm)
    (explicitCF implicitCF : List FCRef)
    (hauto : st.autoCorrelate = true) (himpl : implicitCF ≠ []) :
    ((preAutoFroms st froms0 explicitCF).length > 1 →
      ((autoCorrFilter (preAutoFroms st froms0 explicitCF)
          (expandFCRefs implicitCF) = [] →
        displayFroms st froms0 explicitCF implicitCF =
          .error .invalidRequestError) ∧
       (autoCorrFilter (preAutoFroms st froms0 explicitCF)
          (expandFCRefs implicitCF) ≠ [] →
        displayFroms st froms0 explicitCF implicitCF =
          .ok (autoCorrFilter (preAutoFroms st froms0 explicitCF)
            (expandFCRefs implicitCF))))) ∧
    (¬ (preAutoFroms st froms0 explicitCF).length > 1 →
      displayFroms st froms0 explicitCF implicitCF =
        .ok (preAutoFroms st froms0 explicitCF)) := by
  constructor
  · intro hgt
    constructor
    · intro hemp
      unfold displayFroms
      rw [if_pos ⟨hauto, himpl, hgt⟩, if_pos hemp]
    · intro hne
      unfold displayFroms
      rw [if_pos ⟨hauto, himpl, hgt⟩, if_neg hne]
  · intro hle
    unfold displayFroms
    rw [if_neg (fun hcon => hle hcon.2.2)]

theorem claim_C2_witness :
    (preAutoFroms ⟨true, [], none, none⟩
      [⟨⟨1, [1]⟩, []⟩, ⟨⟨2, [2]⟩, []⟩] []).length > 1 ∧
    displayFroms ⟨true, [], none, none⟩
      [⟨⟨1, [1]⟩, []⟩, ⟨⟨2, [2]⟩, []⟩] [] [⟨1, [1]⟩, ⟨2, [2]⟩] =
      .error .invalidRequestError ∧
    displayFroms ⟨true, [], none, none⟩
      [⟨⟨1, [1]⟩, []⟩, ⟨⟨2, [2]⟩, []⟩] [] [⟨2, [2]⟩] =
      .ok [⟨⟨1, [1]⟩, []⟩] :=
  ⟨by decide,
   ((claim_C2 ⟨true, [], none, none⟩ [⟨⟨1, [1]⟩, []⟩, ⟨⟨2, [2]⟩, []⟩] []
      [⟨1, [1]⟩, ⟨2, [2]⟩] rfl (by decide)).1 (by decide)).1 (by decide),
   ((claim_C2 ⟨true, [], none, none⟩ [⟨⟨1, [1]⟩, []⟩, ⟨⟨2, [2]⟩, []⟩] []
      [⟨2, [2]⟩] rfl (by decide)).1 (by decide)).2 (by decide)⟩

/-- C2 counterexample: a Select with exactly one derived FROM source that
also appears in the implicit enclosing-FROM set: the auto-correlation
filter would remove every remaining source, yet `_get_display_froms`
returns the single-element list instead of raising (the auto-correlation
branch requires `len(froms) > 1`). -/
theorem counterexample_C2 :
    displayFroms ⟨true, [], none, none⟩ [⟨⟨1, [1]⟩, []⟩] [] [⟨1, [1]⟩] =
      .ok [⟨⟨1, [1]⟩, []⟩] ∧
    autoCorrFilter (preAutoFroms ⟨true, [], none, none⟩ [⟨⟨1, [1]⟩, []⟩] [])
      (expandFCRefs [⟨1, [1]⟩]) = [] := by
  decide

/-- C5 (amended): `CompoundSelect` construction succeeds when all component
column counts are equal; when the first component's count is nonzero and a
later component's count differs from it (all components in between agreeing),
construction raises ArgumentError reporting index 1 with the first
component's count and the offending component's 1-based index with its
count.  (A leading zero-count component does not establish the expected
count, because the source tests `if not numcols`.) -/
theorem claim_C5 :
    (∀ counts : List Nat, (∀ c ∈ counts, c = counts.headD 0) →
      compoundSelectInit counts = .ok ()) ∧
    (∀ (a : Nat) (pre : List Nat) (c : Nat) (post : List Nat),
      a ≠ 0 → (∀ x ∈ pre, x = a) → c ≠ a →
      compoundSelectInit (a :: (pre ++ c :: post)) =
        .error ⟨1, a, pre.length + 2, c⟩) := by
  constructor
  · intro counts h
    cases counts with
    | nil => rfl
    | cons a rest =>
      have hstep : compoundSelectInit (a :: rest) =
          csLoop rest (some a) 1 [a] := rfl
      rw [hstep]
      exact csLoop_all_eq a rest 1 [a] (fun y hy => h y (by simp [hy]))
  · intro a pre c post ha hpre hc
    have hstep : compoundSelectInit (a :: (pre ++ c :: post)) =
        csLoop (pre ++ c :: post) (some a) 1 [a] := rfl
    rw [hstep, csLoop_err a c post ha hc pre 1 [a] (by simp) hpre]
    simp only [List.headD_cons, Except.error.injEq, CSErr.mk.injEq,
      eq_self_iff_true, true_and, and_true]
    omega

theorem claim_C5_witness :
    compoundSelectInit [2, 2] = .ok () ∧
    compoundSelectInit [2, 3] = .error ⟨1, 2, 2, 3⟩ :=
  ⟨claim_C5.1 [2, 2] (by decide),
   by have h := claim_C5.2 2 [] 3 [] (by decide) (by simp) (by decide)
      simpa using h⟩

/-- C5 counterexample: a zero-column first component followed by a
3-column component: the counts differ, yet construction succeeds, because
`if not numcols` treats the recorded count 0 as "not yet set". -/
theorem counterexample_C5 :
    compoundSelectInit [0, 3] = .ok () ∧ (0 : Nat) ≠ 3 := by
  decide

/-- C6: when no two columns of the joined sides carry the same `_label`
(no column is name-collapsed), the populated column collection of
`Join(A, B)` is exactly A's exported columns followed by B's, and its
length is `len(A.columns) + len(B.columns)`. -/
theorem claim_C6 (left right : List Col)
    (h : (((left ++ right).map (·.label)).Nodup)) :
    joinColumnCollection left right =
      (left ++ right).map (fun c => (c.label, c)) ∧
    (joinColumnCollection left right).length =
      left.length + right.length := by
  have h1 : joinColumnCollection left right =
      [] ++ (left ++ right).map (fun c => (c.label, c)) :=
    joinCC_fold (left ++ right) [] h (by intro c _ p hp; cases hp)
  simp only [List.nil_append] at h1
  refine ⟨h1, ?_⟩
  rw [h1]
  simp

theorem claim_C6_witness :
    ((([baseCol 1 "a"] ++ [baseCol 2 "b"]).map (fun c => c.label)).Nodup) ∧
    joinColumnCollection [baseCol 1 "a"] [baseCol 2 "b"] =
      [("a", baseCol 1 "a"), ("b", baseCol 2 "b")] ∧
    (joinColumnCollection [baseCol 1 "a"] [baseCol 2 "b"]).length = 1 + 1 :=
  ⟨by decide,
   by have h := (claim_C6 [baseCol 1 "a"] [baseCol 2 "b"] (by decide)).1
      simpa using h,
   (claim_C6 [baseCol 1 "a"] [baseCol 2 "b"] (by decide)).2⟩

/-- C7: every generative mutator of claim C7 (where, having, order_by,
group_by, limit, offset, distinct, select_from, correlate,
correlate_except, with_only_columns, apply_labels), run against an object
store, returns an object distinct from the receiver and leaves the
receiver's entire field record unchanged. -/
theorem claim_C7 (σ : SelStore) (selfId fresh : Nat) (d : SelectData)
    (w hv : SqlExpr) (obs gbs : Option (List Nat)) (ln offn fc : Nat)
    (es cols : List Nat) (cfs cefs : List (Option Nat))
    (h : lookupStore σ selfId = some d) (hfr : fresh ≠ selfId) :
    (lookupStore (whereOp σ selfId w fresh).1 selfId = some d ∧
      (whereOp σ selfId w fresh).2 ≠ selfId) ∧
    (lookupStore (havingOp σ selfId hv fresh).1 selfId = some d ∧
      (havingOp σ selfId hv fresh).2 ≠ selfId) ∧
    (lookupStore (orderByOp σ selfId obs fresh).1 selfId = some d ∧
      (orderByOp σ selfId obs fresh).2 ≠ selfId) ∧
    (lookupStore (groupByOp σ selfId gbs fresh).1 selfId = some d ∧
      (groupByOp σ selfId gbs fresh).2 ≠ selfId) ∧
    (lookupStore (limitOp σ selfId ln fresh).1 selfId = some d ∧
      (limitOp σ selfId ln fresh).2 ≠ selfId) ∧
    (lookupStore (offsetOp σ selfId offn fresh).1 selfId = some d ∧
      (offsetOp σ selfId offn fresh).2 ≠ selfId) ∧
    (lookupStore (distinctOp σ selfId es fresh).1 selfId = some d ∧
      (distinctOp σ selfId es fresh).2 ≠ selfId) ∧
    (lookupStore (selectFromOp σ selfId fc fresh).1 selfId = some d ∧
      (selectFromOp σ selfId fc fresh).2 ≠ selfId) ∧
    (lookupStore (correlateOp σ selfId cfs fresh).1 selfId = some d ∧
      (correlateOp σ selfId cfs fresh).2 ≠ selfId) ∧
    (lookupStore (correlateExceptOp σ selfId cefs fresh).1 selfId = some d ∧
      (correlateExceptOp σ selfId cefs fresh).2 ≠ selfId) ∧
    (lookupStore (withOnlyColumnsOp σ selfId cols fresh).1 selfId = some d ∧
      (withOnlyColumnsOp σ selfId cols fresh).2 ≠ selfId) ∧
    (lookupStore (applyLabelsOp σ selfId fresh).1 selfId = some d ∧
      (applyLabelsOp σ selfId fresh).2 ≠ selfId) := by
  have frame : ∀ fn : SelectData → SelectData,
      lookupStore (genApply σ selfId fresh fn).1 selfId = some d ∧
      (genApply σ selfId fresh fn).2 ≠ selfId := by
    intro fn
    refine ⟨(genApply_frame σ selfId fresh d fn h hfr).1, ?_⟩
    rw [(genApply_frame σ selfId fresh d fn h hfr).2]
    exact hfr
  exact ⟨frame _, frame _, frame _, frame _, frame _, frame _, frame _,
    frame _, frame _, frame _, frame _, frame _⟩

/-- A sample `Select` field record for the C7 witness. -/
def sampleSelectData : SelectData :=
  ⟨[3], some (.base 9), none, none, none, [], [], [], [], none, false,
    .off, true, true⟩

/-- C3: the derived FROM list enumerates the FROM objects referenced by the
raw columns, then by the whereclause, then the explicit from_obj entries, in
that order, de-duplicated by clone-identity set with the first occurrence
kept (after the `_from_cloned` translation each item undergoes); and the
computation is a pure function of the Select's state, so two successive
evaluations on the same unmodified Select yield the same list. -/
theorem claim_C3 (s : SelFromsState) :
    selectFroms s =
      dedupFirstClone
        (((s.rawColFroms.flatMap id) ++ s.whereFroms.getD [] ++
          s.fromObj).map (translateItem s.fromCloned)) [] ∧
    selectFroms s = selectFroms s := by
  constructor
  · have hsingle : selectFroms s =
        (((s.rawColFroms.flatMap id) ++ s.whereFroms.getD [] ++
          s.fromObj).foldl (fromsAddStep s.fromCloned) ([], [])).1 := by
      unfold selectFroms
      rw [List.foldl_append, List.foldl_append]
      cases hw : s.whereFroms with
      | none => simp [hw]
      | some ws => simp [hw]
    rw [hsingle, fromsAdd_fold]
    simp
  · rfl

/-- C4: for a table with distinct column identities, aliased with fresh
proxy identities, the correspondence query round-trips: the alias's
`corresponding_column` at the table's column `x` returns exactly the proxy
of `x` (which is the alias's exported column at the same position); and a
column with no ancestry overlap with any exported column yields `none`
rather than an error. -/
theorem claim_C4 :
    (∀ (pre post : List (Nat × String)) (xid : Nat) (xkey : String)
        (f : Nat) (re : Bool),
      (((pre ++ (xid, xkey) :: post).map Prod.fst).Nodup) →
      (∀ p ∈ pre ++ (xid, xkey) :: post, p.1 < f) →
      correspondingColumn
          (aliasColumns (tableCols (pre ++ (xid, xkey) :: post)) f)
          (baseCol xid xkey) re =
        some (makeProxyCol (f + pre.length) (baseCol xid xkey)) ∧
      (aliasColumns (tableCols (pre ++ (xid, xkey) :: post)) f).get?
          pre.length =
        some (makeProxyCol (f + pre.length) (baseCol xid xkey))) ∧
    (∀ (cols : List Col) (x : Col) (re : Bool),
      containsColumn cols x = false →
      (∀ c ∈ cols, ((x.proxySet.map (·.id)).dedup).filter
        (fun i => (expandClonedRefs c.proxySet).contains i) = []) →
      correspondingColumn cols x re = none) := by
  constructor
  · intro pre post xid xkey f re hnodup hlt
    have hxid_lt : xid < f := hlt (xid, xkey) (by simp)
    have hnd2 : (pre.map Prod.fst ++ xid :: post.map Prod.fst).Nodup := by
      simpa using hnodup
    rcases List.nodup_append.1 hnd2 with ⟨_, hnd3, hdisj⟩
    have hpre_nm : xid ∉ pre.map Prod.fst := by
      intro hin
      exact hdisj hin (List.mem_cons_self _ _)
    have hpost_nm : xid ∉ post.map Prod.fst := (List.nodup_cons.1 hnd3).1
    have hdecomp : aliasColumns (tableCols (pre ++ (xid, xkey) :: post)) f =
        aliasColumns (tableCols pre) f ++
        (makeProxyCol (f + pre.length) (baseCol xid xkey) ::
          aliasColumns (tableCols post) (f + pre.length + 1)) := by
      have h1 : tableCols (pre ++ (xid, xkey) :: post) =
          tableCols pre ++ (baseCol xid xkey :: tableCols post) := by
        simp [tableCols]
      rw [h1, aliasColumns_append]
      rw [show (tableCols pre).length = pre.length from by simp [tableCols]]
      rfl
    have hcont : containsColumn
        (aliasColumns (tableCols (pre ++ (xid, xkey) :: post)) f)
        (baseCol xid xkey) = false :=
      containsColumn_aliasColumns_lt (baseCol xid xkey) _ f hxid_lt
    constructor
    · unfold correspondingColumn
      rw [if_neg (by simp [hcont])]
      rw [hdecomp, List.foldl_append]
      rw [ccFold_skip (baseCol xid xkey) re (aliasColumns (tableCols pre) f)
        ⟨none, []⟩ (aliasColumns_tableCols_skip xid xkey pre f hxid_lt
          hpre_nm)]
      simp only [List.foldl_cons]
      rw [ccStep_hit xid (f + pre.length) xkey re]
      rw [ccFold_skip (baseCol xid xkey) re
        (aliasColumns (tableCols post) (f + pre.length + 1))
        ⟨some (makeProxyCol (f + pre.length) (baseCol xid xkey)), [xid]⟩
        (aliasColumns_tableCols_skip xid xkey post (f + pre.length + 1)
          (by omega) hpost_nm)]
    · rw [hdecomp]
      rw [List.get?_append_right
        (by rw [aliasColumns_length]; simp [tableCols])]
      rw [aliasColumns_length]
      rw [show (tableCols pre).length = pre.length from by simp [tableCols]]
      simp
  · intro cols x re hcont hov
    unfold correspondingColumn
    rw [if_neg (by simp [hcont])]
    rw [ccFold_skip x re cols ⟨none, []⟩ hov]

theorem claim_C4_witness :
    correspondingColumn (aliasColumns (tableCols [(1, "x"), (2, "y")]) 10)
      (baseCol 2 "y") false = some (makeProxyCol 11 (baseCol 2 "y")) ∧
    (aliasColumns (tableCols [(1, "x"), (2, "y")]) 10).get? 1 =
      some (makeProxyCol 11 (baseCol 2 "y")) ∧
    correspondingColumn (aliasColumns (tableCols [(1, "x")]) 10)
      (baseCol 5 "z") true = none := by
  have h := claim_C4.1 [(1, "x")] [] 2 "y" 10 false (by decide) (by decide)
  have h2 := claim_C4.2 (aliasColumns (tableCols [(1, "x")]) 10)
    (baseCol 5 "z") true (by decide) (by decide)
  exact ⟨by simpa using h.1, by simpa using h.2, h2⟩

/-- C1 (code bug): with an alias of a table exporting a proxy of column
`x` (id 1), and a target column `z` (id 5) with no lineage into the alias,
the direct correspondence fails; an equivalents dictionary carrying an
entry for `z` whose equivalent `x` does correspond should, per the
function's own doc string and the spec's intended contract, produce the
proxy of `x` — but the source's `correspond_on_equivalents` consults the
dictionary under the key `col` (already known to be `None`), finds nothing
and returns `None`. -/
theorem claim_C1_eval :
    correspondingColumn (aliasColumns (tableCols [(1, "x")]) 10)
      (baseCol 5 "z") true = none ∧
    correspondingColumn (aliasColumns (tableCols [(1, "x")]) 10)
      (baseCol 1 "x") true = some (makeProxyCol 10 (baseCol 1 "x")) ∧
    correspondOnEquivalents (aliasColumns (tableCols [(1, "x")]) 10)
      (baseCol 5 "z") [(some 5, [baseCol 1 "x"])] = none ∧
    correspondOnEquivalentsSpec (aliasColumns (tableCols [(1, "x")]) 10)
      (baseCol 5 "z") [(some 5, [baseCol 1 "x"])] =
      some (makeProxyCol 10 (baseCol 1 "x")) := by
  decide

theorem claim_C7_witness :
    lookupStore (whereOp [(0, sampleSelectData)] 0 (.base 5) 1).1 0 =
      some sampleSelectData ∧
    (whereOp [(0, sampleSelectData)] 0 (.base 5) 1).2 ≠ 0 ∧
    lookupStore (applyLabelsOp [(0, sampleSelectData)] 0 1).1 0 =
      some sampleSelectData ∧
    (applyLabelsOp [(0, sampleSelectData)] 0 1).2 ≠ 0 :=
  have h := claim_C7 [(0, sampleSelectData)] 0 1 sampleSelectData
    (.base 5) (.base 5) none none 0 0 0 [] [] [] []
    (by decide) (by decide)
  ⟨h.1.1, h.1.2, h.2.2.2.2.2.2.2.2.2.2.2.1, h.2.2.2.2.2.2.2.2.2.2.2.2⟩

end SqlaSel
